import Mathlib

/-! Formal model of the ROVE QC engine core: the pipeline model, the check
harness, the data switch, the scheduler and the ISO-8601 duration parser,
together with theorems about padding derivation, scheduling order, dispatch
and error behaviour. -/

namespace Rove

/-- Calendar-aware duration: independent month count and fixed seconds,
mirroring chronoutil RelativeDuration (a month count plus a chrono Duration,
held here in whole seconds; nanoseconds are always zero in this code base). -/

structure RelativeDuration where
  months : Int
  seconds : Int
deriving Repr, DecidableEq

/-! ## Pipeline model, from src/pipeline.rs -/

structure SpecialValueCheckConf where
  special_values : List Float

structure RangeCheckConf where
  max : Float
  min : Float

structure RangeCheckDynamicConf where
  source : String

structure StepCheckConf where
  max : Float

structure SpikeCheckConf where
  max : Float

/-- FlatlineCheckConf.max is a u8 in the source; modelled as Nat (its value
is below 256, and it is only used in max-folds, which cannot overflow). -/

structure FlatlineCheckConf where
  max : Nat

structure BuddyCheckConf where
  radii : Float
  min_buddies : Nat
  threshold : Float
  max_elev_diff : Float
  elev_gradient : Float
  min_std : Float
  num_iterations : Nat

structure SctConf where
  num_min : Nat
  num_max : Nat
  inner_radius : Float
  outer_radius : Float
  num_iterations : Nat
  num_min_prof : Nat
  min_elev_diff : Float
  min_horizontal_scale : Float
  vertical_scale : Float
  pos : Float
  neg : Float
  eps2 : Float
  obs_to_check : Option (List Bool)

structure ModelConsistencyCheckConf where
  model_source : String
  model_args : String
  threshold : Float

/-- The tagged variant identifying a check together with its configuration
(src/pipeline.rs, enum CheckConf). -/

inductive CheckConf where
  | SpecialValueCheck (conf : SpecialValueCheckConf)
  | RangeCheck (conf : RangeCheckConf)
  | RangeCheckDynamic (conf : RangeCheckDynamicConf)
  | StepCheck (conf : StepCheckConf)
  | SpikeCheck (conf : SpikeCheckConf)
  | FlatlineCheck (conf : FlatlineCheckConf)
  | BuddyCheck (conf : BuddyCheckConf)
  | Sct (conf : SctConf)
  | ModelConsistencyCheck (conf : ModelConsistencyCheckConf)
  | Dummy

structure PipelineStep where
  name : String
  check : CheckConf

/-- A pipeline of checks. The two count fields are derived, not
user-supplied (they are serde-skipped in the source). They are u8 in the
source, modelled as Nat; max-folds of u8 values cannot overflow. -/

structure Pipeline where
  steps : List PipelineStep
  num_leading_required : Nat
  num_trailing_required : Nat

/-- The three per-run context constants imported from the external olympian
crate (src/pipeline.rs lines 3-5). Their values live outside this
repository, so they are kept abstract and quantified over. -/

structure OlympianConsts where
  STEP_LEADING_PER_RUN : Nat
  SPIKE_LEADING_PER_RUN : Nat
  SPIKE_TRAILING_PER_RUN : Nat

/-- CheckConf::get_num_leading_trailing (src/pipeline.rs lines 62-77). -/

def CheckConf.get_num_leading_trailing (oc : OlympianConsts) : CheckConf → Nat × Nat
  | .SpecialValueCheck _ | .RangeCheck _ | .RangeCheckDynamic _ | .BuddyCheck _
  | .Sct _ | .ModelConsistencyCheck _ | .Dummy => (0, 0)
  | .StepCheck _ => (oc.STEP_LEADING_PER_RUN, 0)
  | .SpikeCheck _ => (oc.SPIKE_LEADING_PER_RUN, oc.SPIKE_TRAILING_PER_RUN)
  | .FlatlineCheck conf => (conf.max, 0)

/-- derive_num_leading_trailing (src/pipeline.rs lines 182-188): map each
step to its demand and fold with element-wise max from (0, 0). -/

def derive_num_leading_trailing (oc : OlympianConsts) (pipeline : Pipeline) : Nat × Nat :=
  (pipeline.steps.map (fun step => step.check.get_num_leading_trailing oc)).foldl
    (fun acc x => (Nat.max acc.1 x.1, Nat.max acc.2 x.2)) (0, 0)

/-- The per-step (leading, trailing) demand table exactly as the claim and
spec state it, written independently of the source function it is compared
against: (conf.max, 0) for FlatlineCheck, (STEP_LEADING_PER_RUN, 0) for
StepCheck, (SPIKE_LEADING_PER_RUN, SPIKE_TRAILING_PER_RUN) for SpikeCheck,
and (0, 0) for every other variant. -/

def specStepDemand (oc : OlympianConsts) (c : CheckConf) : Nat × Nat :=
  match c with
  | .FlatlineCheck conf => (conf.max, 0)
  | .StepCheck _ => (oc.STEP_LEADING_PER_RUN, 0)
  | .SpikeCheck _ => (oc.SPIKE_LEADING_PER_RUN, oc.SPIKE_TRAILING_PER_RUN)
  | _ => (0, 0)

/-! ## Check harness, from src/harness.rs -/

/-- The flag enum from the generated pb module, with the stable integer
encoding 0-6 (spec section 6.3). -/

inductive Flag where
  | pass
  | fail
  | warn
  | inconclusive
  | invalid
  | dataMissing
  | isolated
deriving Repr, DecidableEq

/-- Conversion of a raw kernel flag value to a pb Flag (TryFrom in the
generated pb module): values outside 0-6 are rejected, the error carrying a
rendering of the offending value. -/

def flagTryFrom : Nat → Except String Flag
  | 0 => .ok .pass
  | 1 => .ok .fail
  | 2 => .ok .warn
  | 3 => .ok .inconclusive
  | 4 => .ok .invalid
  | 5 => .ok .dataMissing
  | 6 => .ok .isolated
  | n => .error (toString n)

/-- olympian::Timeseries: a station tag and its value series; values are
optional (absence = gap); the numeric payload is Float. -/

structure Timeseries where
  tag : String
  values : List (Option Float)

/-- olympian::DataCache, restricted to the fields the harness reads: the
station series, the common start time (seconds since epoch), the period,
and the leading/trailing context counts (u8, modelled as Nat). The lats,
lons, elevs and rtree fields are only ever passed through to the olympian
kernels, which are abstracted as parameters here, so they are omitted. -/

structure DataCache where
  data : List Timeseries
  start_time : Int
  period : RelativeDuration
  num_leading_points : Nat
  num_trailing_points : Nat

/-- olympian::Error, the external kernel error type, kept abstract bar a
message. -/

structure OlympianError where
  msg : String

/-- harness::Error (src/harness.rs lines 9-18). -/

inductive HarnessError where
  | invalidTestName (name : String)
  | failedTest (e : OlympianError)
  | unknownFlag (msg : String)

/-- Outcome classification for run_test: either a harness Error is returned,
or the Rust code panics (integer underflow, out-of-bounds indexing, or
unwrap on a missing value). -/

inductive RunError where
  | harness (e : HarnessError)
  | panicked (msg : String)

/-- Left-to-right effectful map stopping at the first error: the semantics
of Rust's Iterator::collect into a Result of Vec. -/

def exMapM (f : α → Except ε β) : List α → Except ε (List β)
  | [] => .ok []
  | a :: l =>
    match f a with
    | .error e => .error e
    | .ok b =>
      match exMapM f l with
      | .error e => .error e
      | .ok bs => .ok (b :: bs)

/-- slice::windows(n) on lists: all contiguous sub-slices of length n in
order, empty when the list is shorter than n. The source only ever calls it
with n at least 2, so the Rust panic on n = 0 is unreachable and the n = 0
case is mapped to the empty list. -/

def windows (n : Nat) : List α → List (List α)
  | [] => []
  | x :: xs =>
    if n = 0 ∨ xs.length + 1 < n then []
    else (x :: xs).take n :: windows n xs

/-- Rust slice indexing xs[a..b]: defined when a ≤ b ≤ xs.len, a panic
otherwise. -/

def rustSlice (xs : List α) (a b : Nat) : Except String (List α) :=
  if a ≤ b ∧ b ≤ xs.length then .ok ((xs.drop a).take (b - a))
  else .error ("slice index out of range")

/-- Processing of one window by a series branch of run_test: run the kernel
(olympian dip_check or step_check, with its fixed numeric arguments absorbed
into the parameter), mapping kernel errors to FailedTest, then convert the
returned flag, mapping conversion failures to UnknownFlag. -/

def seriesWindow (kernel : List (Option Float) → Except OlympianError Nat)
    (w : List (Option Float)) : Except RunError Flag :=
  match kernel w with
  | .error e => .error (.harness (.failedTest e))
  | .ok code =>
    match flagTryFrom code with
    | .ok f => .ok f
    | .error s => .error (.harness (.unknownFlag s))

/-- One iteration of a series-branch loop: slice the series from
num_leading_points - LEADING_PER_RUN to series_len and run the kernel over
every window of LEADING_PER_RUN + 1 consecutive values. A slice panic
(start beyond series_len, or this series shorter than series_len) becomes a
panicked outcome. -/

def seriesItem (lpr : Nat) (kernel : List (Option Float) → Except OlympianError Nat)
    (start seriesLen : Nat) (ts : Timeseries) : Except RunError (String × List Flag) :=
  match rustSlice ts.values start seriesLen with
  | .error m => .error (.panicked m)
  | .ok sliced =>
    match exMapM (seriesWindow kernel) (windows (lpr + 1) sliced) with
    | .error e => .error e
    | .ok flags => .ok (ts.tag, flags)

/-- The series branches of run_test (src/harness.rs lines 24-74):
cache.data[0] is indexed before the loop (a panic on an empty cache); the
u8 subtraction num_leading_points - LEADING_PER_RUN panics on underflow,
and is evaluated on the first loop iteration, which exists whenever data is
non-empty, so the check is hoisted here; then each series is processed in
order, aborting on the first error. -/

def seriesCheckRun (lpr : Nat) (kernel : List (Option Float) → Except OlympianError Nat)
    (cache : DataCache) : Except RunError (List (String × List Flag)) :=
  match cache.data with
  | [] => .error (.panicked ("index out of bounds"))
  | first :: _ =>
    if cache.num_leading_points < lpr then
      .error (.panicked ("attempt to subtract with overflow"))
    else
      exMapM (seriesItem lpr kernel (cache.num_leading_points - lpr) first.values.length)
        cache.data

/-- Extraction of one station's value at column i in a spatial branch,
v.1[i].unwrap(): both out-of-bounds indexing and unwrap on a gap panic. -/

def colValue (i : Nat) (ts : Timeseries) : Except RunError Float :=
  match ts.values[i]? with
  | none => .error (.panicked ("index out of bounds"))
  | some none => .error (.panicked ("called unwrap on a None value"))
  | some (some v) => .ok v

/-- One column of a spatial branch of run_test: extract the column values
(unwrapping), run the spatial kernel (rtree and broadcast parameter vectors
absorbed into the parameter; errors become FailedTest), convert all flags
(the source first scans for an out-of-range flag and returns UnknownFlag
for the first one found, then converts with unwrap, which is exactly
left-to-right conversion stopping at the first failure), then push one flag
onto each station's series; a kernel returning more flags than stations
makes the indexed push panic. -/

def spatialColumnStep (kernel : List Float → Except OlympianError (List Nat))
    (data : List Timeseries) (acc : List (String × List Flag)) (i : Nat) :
    Except RunError (List (String × List Flag)) :=
  match exMapM (colValue i) data with
  | .error e => .error e
  | .ok inner =>
    match kernel inner with
    | .error e => .error (.harness (.failedTest e))
    | .ok codes =>
      match exMapM flagTryFrom codes with
      | .error s => .error (.harness (.unknownFlag s))
      | .ok flags =>
        if flags.length ≤ acc.length then
          .ok (List.zipWith (fun p f => (p.1, p.2 ++ [f])) acc flags ++ acc.drop flags.length)
        else .error (.panicked ("index out of bounds"))

/-- The column loop of a spatial branch, left to right over the column
indices, aborting on the first error. -/

def spatialColumns (kernel : List Float → Except OlympianError (List Nat))
    (data : List Timeseries) : List Nat → List (String × List Flag) →
    Except RunError (List (String × List Flag))
  | [], acc => .ok acc
  | i :: rest, acc =>
    match spatialColumnStep kernel data acc i with
    | .error e => .error e
    | .ok acc2 => spatialColumns kernel data rest acc2

/-- The spatial branches of run_test (src/harness.rs lines 75-190):
cache.data[0] is indexed to get series_len (a panic on an empty cache), the
result vector starts as one empty series per station, and the columns
0..series_len are processed in order. -/

def spatialCheckRun (kernel : List Float → Except OlympianError (List Nat))
    (cache : DataCache) : Except RunError (List (String × List Flag)) :=
  match cache.data with
  | [] => .error (.panicked ("index out of bounds"))
  | first :: _ =>
    spatialColumns kernel cache.data (List.range first.values.length)
      (cache.data.map (fun ts => (ts.tag, ([] : List Flag))))

/-- The four numeric kernels run_test can invoke, all provided by the
external olympian crate and hence abstracted: run_test applies dip_check
and step_check to each window with fixed arguments (2., 3.), and
buddy_check / sct per column with the cache rtree and broadcast parameter
vectors; those captured arguments are absorbed into the parameters. -/

structure Kernels where
  dip : List (Option Float) → Except OlympianError Nat
  step : List (Option Float) → Except OlympianError Nat
  buddy : List Float → Except OlympianError (List Nat)
  sct : List Float → Except OlympianError (List Nat)

/-- str::starts_with on strings, computed over character lists (the
library's byte-based String.startsWith does not reduce in the kernel; on
character lists the two agree). -/

def strStartsWith (s pre : String) : Bool :=
  pre.toList.isPrefixOf s.toList

/-- The dispatch of run_test on the test name (src/harness.rs lines
22-199), producing the per-station flag series. The Rust match over
disjoint string literal patterns with a fallthrough is rendered as an
if-chain in the same order. -/

def computeFlags (k : Kernels) (test : String) (cache : DataCache) :
    Except RunError (List (String × List Flag)) :=
  if test = ("dip_check") then seriesCheckRun 2 k.dip cache
  else if test = ("step_check") then seriesCheckRun 1 k.step cache
  else if test = ("buddy_check") then spatialCheckRun k.buddy cache
  else if test = ("sct") then spatialCheckRun k.sct cache
  else if strStartsWith test ("test") then .ok [(("test"), [Flag.inconclusive])]
  else .error (.harness (.invalidTestName test))

/-- The k-th timestamp generated by DateRule::new(start_time, period)
(src/harness.rs lines 201-205), for periods whose month component is zero
(fixed-duration periods such as PT5M): start_time + k * period.seconds.
Calendar stepping for month-bearing periods is never needed here, since
every statement that inspects timestamps constrains period.months to 0. -/
def dateRuleAt (start : Int) (period : RelativeDuration) (k : Nat) : Int :=
  start + k * period.seconds

structure TestResult where
  time : Int
  identifier : String
  flag : Flag
deriving Repr

structure ValidateResponse where
  test : String
  results : List TestResult
deriving Repr

/-- The flattening at the end of run_test (src/harness.rs lines 206-223):
each flag series is zipped with a fresh date rule starting at
cache.start_time (DateRule is Copy, so the zip restarts at start_time for
every series) and paired with its tag, then everything is flattened in
order into TestResult records. -/

def attachTimes (cache : DataCache) (flags : List (String × List Flag)) :
    List TestResult :=
  flags.flatMap (fun fs =>
    fs.2.enum.map (fun p =>
      { time := dateRuleAt cache.start_time cache.period p.1
        identifier := fs.1
        flag := p.2 }))

/-- run_test (src/harness.rs lines 21-229). -/

def runTest (k : Kernels) (test : String) (cache : DataCache) :
    Except RunError ValidateResponse :=
  match computeFlags k test cache with
  | .error e => .error e
  | .ok flags => .ok { test := test, results := attachTimes cache flags }

/-- The test names with an implemented branch in run_test. -/

def implementedTests : List String := ["dip_check", "step_check", "buddy_check", "sct"]

/-! ## Success and length lemmas for the harness branches -/

/-- Station series lengths of a cache, in station order. -/

def seriesLengths (cache : DataCache) : List Nat :=
  cache.data.map (fun ts => ts.values.length)

/-- A series kernel that always succeeds with an in-range flag code. -/

def seriesKernelGood (kernel : List (Option Float) → Except OlympianError Nat) : Prop :=
  ∀ w, ∃ c, kernel w = .ok c ∧ c ≤ 6

/-- A spatial kernel that always succeeds, returning one in-range flag code
per input value. -/

def spatialKernelGood (kernel : List Float → Except OlympianError (List Nat)) : Prop :=
  ∀ inner, ∃ codes, kernel inner = .ok codes ∧ codes.length = inner.length ∧
    ∀ c ∈ codes, c ≤ 6

/-- Every station series of the cache has length T. -/

def uniformLen (cache : DataCache) (T : Nat) : Prop :=
  ∀ ts ∈ cache.data, ts.values.length = T

/-- No station series of the cache has a gap. -/

def noGaps (cache : DataCache) : Prop :=
  ∀ ts ∈ cache.data, ∀ v ∈ ts.values, v.isSome = true

/-- A column in which every station has a present value. -/

def cleanCol (data : List Timeseries) (i : Nat) : Prop :=
  ∀ ts ∈ data, ∃ v, ts.values[i]? = some (some v)

/-! ## Concrete kernels and caches used in counterexamples and witnesses -/

/-- Benign stand-ins for the external olympian kernels: series kernels
always return flag code 0 (Pass), spatial kernels one 0 per station. -/

def constKernels : Kernels :=
  { dip := fun _ => .ok 0, step := fun _ => .ok 0,
    buddy := fun inner => .ok (List.replicate inner.length 0),
    sct := fun inner => .ok (List.replicate inner.length 0) }

/-- One station of three observations with one leading and one trailing
context point. -/

def paddedCache : DataCache :=
  { data := [{ tag := ("s"), values := [some 1.0, some 1.0, some 1.0] }],
    start_time := 1700000000, period := { months := 0, seconds := 300 },
    num_leading_points := 1, num_trailing_points := 1 }

/-- Two gap-free stations of three observations with one leading point. -/

def gapFreeCache : DataCache :=
  { data := [{ tag := ("a"), values := [some 1.0, some 2.0, some 3.0] },
             { tag := ("b"), values := [some 4.0, some 5.0, some 6.0] }],
    start_time := 0, period := { months := 0, seconds := 300 },
    num_leading_points := 1, num_trailing_points := 0 }

/-! ## Gap behaviour of the spatial branches -/

/-- Some station of the data has a recorded gap (a present None) at column i. -/

def gapAt (data : List Timeseries) (i : Nat) : Prop :=
  ∃ ts ∈ data, ts.values[i]? = some none

/-- Two stations of three observations, station "a" with a gap at column 1. -/

def gappedCache : DataCache :=
  { data := [{ tag := ("a"), values := [some 1.0, none, some 3.0] },
             { tag := ("b"), values := [some 4.0, some 5.0, some 6.0] }],
    start_time := 0, period := { months := 0, seconds := 300 },
    num_leading_points := 0, num_trailing_points := 0 }

/-! ## Timestamp attachment -/

/-- One station of three observations with one leading context point and a
fixed five-minute period. -/

def leadingCache : DataCache :=
  { data := [{ tag := ("s"), values := [some 1.0, some 1.0, some 1.0] }],
    start_time := 1700000000, period := { months := 0, seconds := 300 },
    num_leading_points := 1, num_trailing_points := 0 }

/-! ## Data switch, from src/data_switch.rs -/

/-- Inclusive time range (src/data_switch.rs lines 64-71). -/

structure Timerange where
  start : Int
  «end» : Int

/-- TimeSpec (src/data_switch.rs lines 73-80). -/

structure TimeSpec where
  timerange : Timerange
  time_resolution : RelativeDuration

/-- GeoPoint (src/data_switch.rs lines 107-114). -/

structure GeoPoint where
  lat : Float
  lon : Float

/-- SpaceSpec (src/data_switch.rs lines 121-130). -/

inductive SpaceSpec where
  | One (data_id : String)
  | Polygon (polygon : List GeoPoint)
  | All

/-- data_switch::Error (src/data_switch.rs lines 23-62); boxed foreign error
payloads are abstracted to strings. -/

inductive DataSwitchError where
  | invalidSeriesId (id : String)
  | invalidDataSource (id : String)
  | invalidExtraSpec (data_source : String) (extra_spec : Option String) (source : String)
  | io (msg : String)
  | unimplementedSeries (msg : String)
  | unimplementedSpatial (msg : String)
  | join (msg : String)
  | other (msg : String)

/-- The DataConnector trait (src/data_switch.rs lines 190-201): a single
fetch_data operation taking space spec, time spec, the two padding counts
and the opaque extra spec. -/

structure DataConnector where
  fetch_data : SpaceSpec → TimeSpec → Nat → Nat → Option String →
    Except DataSwitchError DataCache

/-- DataSwitch (src/data_switch.rs lines 228-231): the connector registry.
The HashMap with unique keys is modelled as an association list read with
first-match lookup. -/

structure DataSwitch where
  sources : List (String × DataConnector)

/-- DataSwitch::fetch_data (src/data_switch.rs lines 242-265): look the
connector up by id, InvalidDataSource if absent, otherwise forward all
arguments and return the connector's result. -/

def DataSwitch.fetch_data (ds : DataSwitch) (data_source_id : String)
    (space_spec : SpaceSpec) (time_spec : TimeSpec)
    (num_leading_points num_trailing_points : Nat) (extra_spec : Option String) :
    Except DataSwitchError DataCache :=
  match ds.sources.lookup data_source_id with
  | none => .error (.invalidDataSource data_source_id)
  | some data_source =>
    data_source.fetch_data space_spec time_spec num_leading_points num_trailing_points
      extra_spec

/-- A record of one connector invocation: the connector's registry id and
the five arguments passed to it. -/

def ConnectorCall : Type :=
  String × SpaceSpec × TimeSpec × Nat × Nat × Option String

/-- fetch_data instrumented with the list of connector invocations it
performs, for stating that no connector is invoked. -/

def DataSwitch.fetch_dataT (ds : DataSwitch) (data_source_id : String)
    (space_spec : SpaceSpec) (time_spec : TimeSpec)
    (num_leading_points num_trailing_points : Nat) (extra_spec : Option String) :
    Except DataSwitchError DataCache × List ConnectorCall :=
  match ds.sources.lookup data_source_id with
  | none => (.error (.invalidDataSource data_source_id), [])
  | some data_source =>
    (data_source.fetch_data space_spec time_spec num_leading_points num_trailing_points
        extra_spec,
      [(data_source_id, space_spec, time_spec, num_leading_points, num_trailing_points,
        extra_spec)])

/-- A connector that always reports an upstream failure. -/

def failingConnector : DataConnector :=
  { fetch_data := fun _ _ _ _ _ => .error (.io ("upstream unavailable")) }

/-- A switch whose only registered source is "src1". -/

def oneSourceSwitch : DataSwitch :=
  { sources := [(("src1"), failingConnector)] }

/-- A five-minute TimeSpec over an arbitrary range, for concrete calls. -/

def someTimeSpec : TimeSpec :=
  { timerange := { start := 1700000000, «end» := 1700003600 },
    time_resolution := { months := 0, seconds := 300 } }

/-! ## Scheduler, from src/scheduler.rs -/

/-- Modelled from the spec: FlagSeries, the per-station flag series of the
newer harness result type, whose defining module is not among the sources
(only the scheduler, which consumes it, is): a station tag and its flags
(spec section 3.4). -/

structure FlagSeries where
  tag : String
  values : List Flag

/-- Modelled from the spec: harness::CheckResult, the result type of the
newer run_check harness entry point, whose defining module is not among the
sources: the step's name and one FlagSeries per station (spec section 3.4). -/

structure CheckResult where
  check : String
  results : List FlagSeries

/-- scheduler::Error (src/scheduler.rs lines 12-24). -/

inductive SchedulerError where
  | runner (e : HarnessError)
  | invalidArg (msg : String)
  | dataSwitch (e : DataSwitchError)

/-- Scheduler::schedule_tests (src/scheduler.rs lines 49-55): map each
pipeline step through the harness entry point run_check, wrapping harness
errors in Error::Runner, and collect into a single Result, which stops at
the first error. run_check lives in a harness version that is not among
the sources, so it is a parameter. -/

def schedule_tests (run_check : PipelineStep → DataCache → Except HarnessError CheckResult)
    (pipeline : Pipeline) (data : DataCache) : Except SchedulerError (List CheckResult) :=
  exMapM (fun step =>
    match run_check step data with
    | .error e => .error (SchedulerError.runner e)
    | .ok r => .ok r) pipeline.steps

/-- The step list traversal of schedule_tests instrumented with the list of
steps on which run_check is invoked. -/

def schedule_testsT (run_check : PipelineStep → DataCache → Except HarnessError CheckResult)
    (data : DataCache) : List PipelineStep →
    Except SchedulerError (List CheckResult) × List PipelineStep
  | [] => (.ok [], [])
  | step :: rest =>
    match run_check step data with
    | .error e => (.error (.runner e), [step])
    | .ok r =>
      let t := schedule_testsT run_check data rest
      (match t.1 with
        | .error e => .error e
        | .ok rs => .ok (r :: rs), step :: t.2)

/-- A stand-in run_check that fails exactly on steps named "bad". -/

def namedRunCheck : PipelineStep → DataCache → Except HarnessError CheckResult :=
  fun step _ =>
    if step.name = ("bad") then .error (.invalidTestName ("bad"))
    else .ok { check := step.name, results := [] }

/-- A three-step pipeline whose middle step fails under namedRunCheck. -/

def midFailPipeline : Pipeline :=
  { steps := [{ name := ("a"), check := .Dummy },
              { name := ("bad"), check := .Dummy },
              { name := ("c"), check := .Dummy }],
    num_leading_required := 0, num_trailing_required := 0 }

/-- Scheduler (src/scheduler.rs lines 29-36): the pipeline table (HashMap
with unique keys, modelled as an association list with first-match lookup)
and the data switch. -/

structure Scheduler where
  pipelines : List (String × Pipeline)
  data_switch : DataSwitch

/-- Scheduler::validate_direct (src/scheduler.rs lines 84-120): look up the
pipeline (InvalidArg "pipeline not recognised" if absent), fetch data
through the data switch using the pipeline's derived padding (failures
wrapped in Error::DataSwitch), then run schedule_tests. backing_sources is
accepted and ignored, as in the source. -/

def validate_direct (s : Scheduler)
    (run_check : PipelineStep → DataCache → Except HarnessError CheckResult)
    (data_source : String) (_backing_sources : List String)
    (time_spec : TimeSpec) (space_spec : SpaceSpec)
    (test_pipeline : String) (extra_spec : Option String) :
    Except SchedulerError (List CheckResult) :=
  match s.pipelines.lookup test_pipeline with
  | none => .error (.invalidArg ("pipeline not recognised"))
  | some pipeline =>
    match s.data_switch.fetch_data data_source space_spec time_spec
        pipeline.num_leading_required pipeline.num_trailing_required extra_spec with
    | .error e => .error (.dataSwitch e)
    | .ok data => schedule_tests run_check pipeline data

/-- validate_direct instrumented with the data-switch fetch calls it makes
and the connector invocations those in turn make. -/

def validate_directT (s : Scheduler)
    (run_check : PipelineStep → DataCache → Except HarnessError CheckResult)
    (data_source : String) (_backing_sources : List String)
    (time_spec : TimeSpec) (space_spec : SpaceSpec)
    (test_pipeline : String) (extra_spec : Option String) :
    Except SchedulerError (List CheckResult) × List ConnectorCall × List ConnectorCall :=
  match s.pipelines.lookup test_pipeline with
  | none => (.error (.invalidArg ("pipeline not recognised")), [], [])
  | some pipeline =>
    let fr := s.data_switch.fetch_dataT data_source space_spec time_spec
      pipeline.num_leading_required pipeline.num_trailing_required extra_spec
    (match fr.1 with
      | .error e => .error (.dataSwitch e)
      | .ok data => schedule_tests run_check pipeline data,
      [(data_source, space_spec, time_spec, pipeline.num_leading_required,
        pipeline.num_trailing_required, extra_spec)],
      fr.2)

/-- A scheduler with one pipeline "known" and one data source "src1". -/

def onePipelineScheduler : Scheduler :=
  { pipelines := [(("known"), midFailPipeline)], data_switch := oneSourceSwitch }

/-! ## ISO-8601 duration parsing, from met_connectors/src/frost/duration.rs -/

/-- frost::duration::Error (duration.rs lines 5-10). -/

inductive DurationError where
  | parse (msg : String)

/-- dhms_to_duration (duration.rs lines 12-14): the chrono Duration is held
as its whole-second count. The source computes in i32 then widens to i64;
Int is used here, faithful for all values that do not overflow i32, which
none of the inputs considered below approach. -/

def dhms_to_duration (days hours minutes seconds : Int) : Int :=
  ((days * 24 + hours) * 60 + minutes) * 60 + seconds

/-- str::split_once: split at the first occurrence of the separator,
returning the parts before and after it, or none when absent. -/

def splitOnce (c : Char) : List Char → Option (List Char × List Char)
  | [] => none
  | a :: rest =>
    if a = c then some ([], rest)
    else (splitOnce c rest).map (fun p => (a :: p.1, p.2))

/-- Decimal digits to a number, none on a non-digit. -/

def digitsToNat (acc : Nat) : List Char → Option Nat
  | [] => some acc
  | c :: rest =>
    if c.isDigit then digitsToNat (acc * 10 + (c.toNat - 48)) rest
    else none

/-- At least one decimal digit. -/

def parseDigits : List Char → Option Nat
  | [] => none
  | ds => digitsToNat 0 ds

/-- i32::from_str: an optional sign followed by at least one ASCII decimal
digit, the value required to fit in 32 bits. -/

def parseI32 (s : List Char) : Option Int :=
  let core : Option Int :=
    match s with
    | '+' :: ds => (parseDigits ds).map (fun n => (n : Int))
    | '-' :: ds => (parseDigits ds).map (fun n => -(n : Int))
    | ds => (parseDigits ds).map (fun n => (n : Int))
  match core with
  | none => none
  | some v => if -(2 ^ 31) ≤ v ∧ v ≤ 2 ^ 31 - 1 then some v else none

/-- get_terminated (duration.rs lines 16-25): when the terminator occurs,
parse everything before its first occurrence as an i32 and return it with
the remainder; otherwise consume nothing and return 0. -/

def get_terminated (input : List Char) (terminator : Char) :
    Except DurationError (List Char × Int) :=
  match splitOnce terminator input with
  | some (int_string, remainder) =>
    match parseI32 int_string with
    | some n => .ok (remainder, n)
    | none => .error (.parse (String.mk int_string ++ (" is not a valid i32")))
  | none => .ok (input, 0)

/-- parse_datespec (duration.rs lines 27-40): Y, M, D terminated fields in
order; any unconsumed remainder is an error. -/

def parse_datespec (datespec : List Char) : Except DurationError (Int × Int × Int) :=
  match get_terminated datespec 'Y' with
  | .error e => .error e
  | .ok (r1, years) =>
    match get_terminated r1 'M' with
    | .error e => .error e
    | .ok (r2, months) =>
      match get_terminated r2 'D' with
      | .error e => .error e
      | .ok (r3, days) =>
        if r3.isEmpty then .ok (years, months, days)
        else
          .error (.parse (("trailing characters: ") ++ String.mk r3 ++
            (" in datespec: ") ++ String.mk datespec))

/-- parse_timespec (duration.rs lines 42-55): H, M, S terminated fields in
order; any unconsumed remainder is an error. -/

def parse_timespec (timespec : List Char) : Except DurationError (Int × Int × Int) :=
  match get_terminated timespec 'H' with
  | .error e => .error e
  | .ok (r1, hours) =>
    match get_terminated r1 'M' with
    | .error e => .error e
    | .ok (r2, mins) =>
      match get_terminated r2 'S' with
      | .error e => .error e
      | .ok (r3, secs) =>
        if r3.isEmpty then .ok (hours, mins, secs)
        else
          .error (.parse (("trailing characters: ") ++ String.mk r3 ++
            (" in timespec: ") ++ String.mk timespec))

/-- The date-part / time-part split of parse_duration:
split_once('T').unwrap_or((input, "")). -/

def splitDT (rest : List Char) : List Char × List Char :=
  match splitOnce 'T' rest with
  | some p => p
  | none => (rest, [])

/-- parse_duration (duration.rs lines 57-69): strip the mandatory P prefix,
split the date and time parts at the first T, parse both, and assemble
months = years * 12 + months with a fixed duration from days, hours,
minutes and seconds. -/

def parse_duration (input : String) : Except DurationError RelativeDuration :=
  match input.toList with
  | 'P' :: rest =>
    let p := splitDT rest
    match parse_datespec p.1 with
    | .error e => .error e
    | .ok (years, months, days) =>
      match parse_timespec p.2 with
      | .error e => .error e
      | .ok (hours, mins, secs) =>
        .ok { months := years * 12 + months,
              seconds := dhms_to_duration days hours mins secs }
  | _ => .error (.parse ("duration was not prefixed with P"))

/-! ## Lemmas, claim theorems and witnesses -/

lemma get_num_leading_trailing_eq_specStepDemand (oc : OlympianConsts) (c : CheckConf) :
    c.get_num_leading_trailing oc = specStepDemand oc c := by
  cases c <;> rfl

/-- C1: derive_num_leading_trailing returns exactly the element-wise maximum,
over the pipeline's steps, of each step's (leading, trailing) demand, folded
from (0, 0), with the demand table as stated in the spec; in particular it
returns (0, 0) for an empty step sequence. -/

theorem derive_num_leading_trailing_is_max_fold (oc : OlympianConsts) (p : Pipeline) :
    derive_num_leading_trailing oc p =
      p.steps.foldl
        (fun acc step => (Nat.max acc.1 (specStepDemand oc step.check).1,
          Nat.max acc.2 (specStepDemand oc step.check).2)) (0, 0) ∧
    derive_num_leading_trailing oc
      { steps := [], num_leading_required := 0, num_trailing_required := 0 } = (0, 0) := by
  constructor
  · simp [derive_num_leading_trailing, List.foldl_map,
      get_num_leading_trailing_eq_specStepDemand]
  · rfl

lemma exMapM_error {f : α → Except ε β} {l : List α} {e : ε}
    (h : exMapM f l = .error e) : ∃ a ∈ l, f a = .error e := by
  induction l with
  | nil => simp [exMapM] at h
  | cons a l ih =>
    rw [exMapM] at h
    cases hfa : f a with
    | error ea => rw [hfa] at h; cases h; exact ⟨a, by simp, hfa⟩
    | ok b =>
      rw [hfa] at h
      cases hrest : exMapM f l with
      | error er =>
        rw [hrest] at h; cases h
        obtain ⟨x, hx, hfx⟩ := ih hrest
        exact ⟨x, by simp [hx], hfx⟩
      | ok bs => rw [hrest] at h; cases h

lemma exMapM_ok_forall {f : α → Except ε β} {l : List α}
    (h : ∀ a ∈ l, ∃ b, f a = .ok b) :
    ∃ bs, exMapM f l = .ok bs ∧ bs.length = l.length ∧
      ∀ b ∈ bs, ∃ a ∈ l, f a = .ok b := by
  induction l with
  | nil => exact ⟨[], rfl, rfl, by simp⟩
  | cons a l ih =>
    obtain ⟨b, hb⟩ := h a (by simp)
    obtain ⟨bs, hbs, hlen, hmem⟩ := ih (fun x hx => h x (by simp [hx]))
    refine ⟨b :: bs, ?_, by simp [hlen], ?_⟩
    · rw [exMapM, hb, hbs]
    · intro c hc
      rcases List.mem_cons.mp hc with hc | hc
      · exact ⟨a, by simp, hc ▸ hb⟩
      · obtain ⟨x, hx, hfx⟩ := hmem c hc
        exact ⟨x, by simp [hx], hfx⟩

lemma windows_length (n : Nat) (hn : 0 < n) (xs : List α) :
    (windows n xs).length = xs.length + 1 - n := by
  induction xs with
  | nil => simp [windows]; omega
  | cons x xs ih =>
    rw [windows]
    by_cases h : n = 0 ∨ xs.length + 1 < n
    · rw [if_pos h]
      rcases h with h | h
      · omega
      · simp
        omega
    · rw [if_neg h]
      rw [not_or, Nat.not_lt] at h
      simp [ih]
      omega

lemma rustSlice_ok {xs : List α} {a b : Nat} (h1 : a ≤ b) (h2 : b ≤ xs.length) :
    ∃ ys, rustSlice xs a b = .ok ys ∧ ys.length = b - a := by
  refine ⟨(xs.drop a).take (b - a), by rw [rustSlice, if_pos ⟨h1, h2⟩], ?_⟩
  simp [List.length_take, List.length_drop]
  omega

/-! ## Error-shape lemmas for the harness branches -/

lemma flagTryFrom_ok_of_le {c : Nat} (h : c ≤ 6) : ∃ f, flagTryFrom c = .ok f := by
  interval_cases c <;> exact ⟨_, rfl⟩

lemma seriesWindow_error_shape {kernel : List (Option Float) → Except OlympianError Nat}
    {w : List (Option Float)} {e : RunError} (h : seriesWindow kernel w = .error e) :
    (∃ oe, e = .harness (.failedTest oe)) ∨ ∃ s, e = .harness (.unknownFlag s) := by
  unfold seriesWindow at h
  split at h
  · cases h; exact .inl ⟨_, rfl⟩
  · split at h
    · cases h
    · cases h; exact .inr ⟨_, rfl⟩

lemma seriesItem_error_shape {lpr : Nat}
    {kernel : List (Option Float) → Except OlympianError Nat}
    {start seriesLen : Nat} {ts : Timeseries} {e : RunError}
    (h : seriesItem lpr kernel start seriesLen ts = .error e) :
    (∃ m, e = .panicked m) ∨ (∃ oe, e = .harness (.failedTest oe)) ∨
      ∃ s, e = .harness (.unknownFlag s) := by
  unfold seriesItem at h
  split at h
  · cases h; exact .inl ⟨_, rfl⟩
  · split at h
    · cases h
      rename_i hmap
      obtain ⟨w, _, hw⟩ := exMapM_error hmap
      rcases seriesWindow_error_shape hw with h1 | h1
      · exact .inr (.inl h1)
      · exact .inr (.inr h1)
    · cases h

lemma seriesCheckRun_error_shape {lpr : Nat}
    {kernel : List (Option Float) → Except OlympianError Nat}
    {cache : DataCache} {e : RunError}
    (h : seriesCheckRun lpr kernel cache = .error e) :
    (∃ m, e = .panicked m) ∨ (∃ oe, e = .harness (.failedTest oe)) ∨
      ∃ s, e = .harness (.unknownFlag s) := by
  unfold seriesCheckRun at h
  split at h
  · cases h; exact .inl ⟨_, rfl⟩
  · split at h
    · cases h; exact .inl ⟨_, rfl⟩
    · obtain ⟨ts, _, hts⟩ := exMapM_error h
      exact seriesItem_error_shape hts

lemma colValue_error_shape {i : Nat} {ts : Timeseries} {e : RunError}
    (h : colValue i ts = .error e) : ∃ m, e = .panicked m := by
  unfold colValue at h
  split at h
  · cases h; exact ⟨_, rfl⟩
  · cases h; exact ⟨_, rfl⟩
  · cases h

lemma spatialColumnStep_error_shape
    {kernel : List Float → Except OlympianError (List Nat)}
    {data : List Timeseries} {acc : List (String × List Flag)} {i : Nat} {e : RunError}
    (h : spatialColumnStep kernel data acc i = .error e) :
    (∃ m, e = .panicked m) ∨ (∃ oe, e = .harness (.failedTest oe)) ∨
      ∃ s, e = .harness (.unknownFlag s) := by
  unfold spatialColumnStep at h
  split at h
  · cases h
    rename_i hmap
    obtain ⟨ts, _, hts⟩ := exMapM_error hmap
    exact .inl (colValue_error_shape hts)
  · split at h
    · cases h; exact .inr (.inl ⟨_, rfl⟩)
    · split at h
      · cases h; exact .inr (.inr ⟨_, rfl⟩)
      · split at h
        · cases h
        · cases h; exact .inl ⟨_, rfl⟩

lemma spatialColumns_error_shape
    {kernel : List Float → Except OlympianError (List Nat)}
    {data : List Timeseries} {e : RunError} :
    ∀ {cols : List Nat} {acc : List (String × List Flag)},
      spatialColumns kernel data cols acc = .error e →
      (∃ m, e = .panicked m) ∨ (∃ oe, e = .harness (.failedTest oe)) ∨
        ∃ s, e = .harness (.unknownFlag s) := by
  intro cols
  induction cols with
  | nil => intro acc h; cases h
  | cons i rest ih =>
    intro acc h
    rw [spatialColumns] at h
    split at h
    · cases h
      rename_i hstep
      exact spatialColumnStep_error_shape hstep
    · exact ih h

lemma spatialCheckRun_error_shape
    {kernel : List Float → Except OlympianError (List Nat)}
    {cache : DataCache} {e : RunError}
    (h : spatialCheckRun kernel cache = .error e) :
    (∃ m, e = .panicked m) ∨ (∃ oe, e = .harness (.failedTest oe)) ∨
      ∃ s, e = .harness (.unknownFlag s) := by
  unfold spatialCheckRun at h
  split at h
  · cases h; exact .inl ⟨_, rfl⟩
  · exact spatialColumns_error_shape h

lemma seriesCheckRun_ne_invalidTestName {lpr : Nat}
    {kernel : List (Option Float) → Except OlympianError Nat}
    {cache : DataCache} {s : String}
    (h : seriesCheckRun lpr kernel cache = .error (.harness (.invalidTestName s))) :
    False := by
  rcases seriesCheckRun_error_shape h with ⟨m, hm⟩ | ⟨oe, hm⟩ | ⟨t, hm⟩ <;> simp at hm

lemma spatialCheckRun_ne_invalidTestName
    {kernel : List Float → Except OlympianError (List Nat)}
    {cache : DataCache} {s : String}
    (h : spatialCheckRun kernel cache = .error (.harness (.invalidTestName s))) :
    False := by
  rcases spatialCheckRun_error_shape h with ⟨m, hm⟩ | ⟨oe, hm⟩ | ⟨t, hm⟩ <;> simp at hm

/-! ## Dispatch lemmas for computeFlags -/

lemma computeFlags_dip (k : Kernels) (cache : DataCache) :
    computeFlags k ("dip_check") cache = seriesCheckRun 2 k.dip cache := rfl

lemma computeFlags_step (k : Kernels) (cache : DataCache) :
    computeFlags k ("step_check") cache = seriesCheckRun 1 k.step cache := rfl

lemma computeFlags_buddy (k : Kernels) (cache : DataCache) :
    computeFlags k ("buddy_check") cache = spatialCheckRun k.buddy cache := rfl

lemma computeFlags_sct (k : Kernels) (cache : DataCache) :
    computeFlags k ("sct") cache = spatialCheckRun k.sct cache := rfl

lemma runTest_error_iff {k : Kernels} {test : String} {cache : DataCache} {e : RunError} :
    runTest k test cache = .error e ↔ computeFlags k test cache = .error e := by
  unfold runTest
  cases h : computeFlags k test cache <;> simp

/-- C7: run_test returns InvalidTestName(name) exactly when the name matches
no implemented check and does not begin with "test"; an unknown name that
does begin with "test" instead succeeds with a single flag series tagged
"test" holding exactly one Inconclusive flag. -/

theorem runTest_invalid_name_dispatch (k : Kernels) (cache : DataCache) (test : String) :
    (runTest k test cache = .error (.harness (.invalidTestName test)) ↔
      (test ∉ implementedTests ∧ strStartsWith test ("test") = false)) ∧
    (test ∉ implementedTests → strStartsWith test ("test") = true →
      computeFlags k test cache = .ok [(("test"), [Flag.inconclusive])] ∧
      runTest k test cache =
        .ok { test := test,
              results := [{ time := cache.start_time, identifier := ("test"),
                            flag := Flag.inconclusive }] }) := by
  have hok : ∀ (h1 : test ≠ ("dip_check")) (h2 : test ≠ ("step_check"))
      (h3 : test ≠ ("buddy_check")) (h4 : test ≠ ("sct"))
      (h5 : strStartsWith test ("test") = true),
      computeFlags k test cache = .ok [(("test"), [Flag.inconclusive])] := by
    intro h1 h2 h3 h4 h5
    simp only [computeFlags, if_neg h1, if_neg h2, if_neg h3, if_neg h4, if_pos h5]
  constructor
  · rw [runTest_error_iff]
    constructor
    · intro h
      by_cases h1 : test = ("dip_check")
      · rw [h1, computeFlags_dip] at h
        exact absurd h (fun hh => seriesCheckRun_ne_invalidTestName (h1 ▸ hh))
      by_cases h2 : test = ("step_check")
      · rw [h2, computeFlags_step] at h
        exact absurd h (fun hh => seriesCheckRun_ne_invalidTestName (h2 ▸ hh))
      by_cases h3 : test = ("buddy_check")
      · rw [h3, computeFlags_buddy] at h
        exact absurd h (fun hh => spatialCheckRun_ne_invalidTestName (h3 ▸ hh))
      by_cases h4 : test = ("sct")
      · rw [h4, computeFlags_sct] at h
        exact absurd h (fun hh => spatialCheckRun_ne_invalidTestName (h4 ▸ hh))
      by_cases h5 : strStartsWith test ("test") = true
      · rw [hok h1 h2 h3 h4 h5] at h
        cases h
      · refine ⟨?_, by simpa using h5⟩
        simp [implementedTests, h1, h2, h3, h4]
    · rintro ⟨hmem, hpre⟩
      simp only [implementedTests, List.mem_cons, List.mem_singleton] at hmem
      push_neg at hmem
      obtain ⟨h1, h2, h3, h4⟩ := by simpa using hmem
      simp only [computeFlags, if_neg h1, if_neg h2, if_neg h3, if_neg h4]
      rw [if_neg]
      simp [hpre]
  · intro hmem hpre
    simp only [implementedTests, List.mem_cons, List.mem_singleton] at hmem
    push_neg at hmem
    obtain ⟨h1, h2, h3, h4⟩ := by simpa using hmem
    have hcf := hok h1 h2 h3 h4 hpre
    refine ⟨hcf, ?_⟩
    rw [runTest, hcf]
    simp [attachTimes, dateRuleAt, List.enum]

/-- Witness for C7 at concrete inputs: the name "testfoo" is not an
implemented check but begins with "test", so it succeeds with one
Inconclusive flag; applied through the theorem itself. -/

theorem runTest_invalid_name_dispatch_witness :
    computeFlags
        { dip := fun _ => .ok 0, step := fun _ => .ok 0,
          buddy := fun inner => .ok (List.replicate inner.length 0),
          sct := fun inner => .ok (List.replicate inner.length 0) }
        ("testfoo")
        { data := [], start_time := 0, period := { months := 0, seconds := 300 },
          num_leading_points := 0, num_trailing_points := 0 } =
      .ok [(("test"), [Flag.inconclusive])] :=
  ((runTest_invalid_name_dispatch _ _ _).2 (by decide) (by decide)).1

/-- C10: the series branches of run_test are partial in the cache shape:
with zero stations both panic on indexing cache.data[0]; with a non-empty
station list, step_check panics when num_leading_points < 1 and dip_check
when num_leading_points < 2 (u8 underflow in
num_leading_points - LEADING_PER_RUN). -/

theorem series_branch_preconditions (k : Kernels) (cache : DataCache) :
    (cache.data = [] →
      computeFlags k ("step_check") cache = .error (.panicked ("index out of bounds")) ∧
      computeFlags k ("dip_check") cache = .error (.panicked ("index out of bounds"))) ∧
    (cache.data ≠ [] → cache.num_leading_points < 1 →
      computeFlags k ("step_check") cache =
        .error (.panicked ("attempt to subtract with overflow"))) ∧
    (cache.data ≠ [] → cache.num_leading_points < 2 →
      computeFlags k ("dip_check") cache =
        .error (.panicked ("attempt to subtract with overflow"))) := by
  refine ⟨fun hnil => ⟨?_, ?_⟩, fun hne hL => ?_, fun hne hL => ?_⟩
  · rw [computeFlags_step]; simp [seriesCheckRun, hnil]
  · rw [computeFlags_dip]; simp [seriesCheckRun, hnil]
  · obtain ⟨a, l, hcons⟩ := List.exists_cons_of_ne_nil hne
    rw [computeFlags_step]; simp [seriesCheckRun, hcons, hL]
  · obtain ⟨a, l, hcons⟩ := List.exists_cons_of_ne_nil hne
    rw [computeFlags_dip]; simp [seriesCheckRun, hcons, hL]

/-- Witness for C10 at concrete inputs: an empty cache panics in both series
branches, and a one-station cache with one leading point panics in
dip_check; applied through the theorem itself. -/

theorem series_branch_preconditions_witness :
    computeFlags
        { dip := fun _ => .ok 0, step := fun _ => .ok 0,
          buddy := fun inner => .ok (List.replicate inner.length 0),
          sct := fun inner => .ok (List.replicate inner.length 0) }
        ("step_check")
        { data := [], start_time := 0, period := { months := 0, seconds := 300 },
          num_leading_points := 0, num_trailing_points := 0 } =
      .error (.panicked ("index out of bounds")) ∧
    computeFlags
        { dip := fun _ => .ok 0, step := fun _ => .ok 0,
          buddy := fun inner => .ok (List.replicate inner.length 0),
          sct := fun inner => .ok (List.replicate inner.length 0) }
        ("dip_check")
        { data := [{ tag := ("s"), values := [some 1.0, some 1.0, some 1.0] }],
          start_time := 0, period := { months := 0, seconds := 300 },
          num_leading_points := 1, num_trailing_points := 0 } =
      .error (.panicked ("attempt to subtract with overflow")) :=
  ⟨((series_branch_preconditions _ _).1 rfl).1,
    (series_branch_preconditions _ _).2.2 (by simp) (by decide)⟩

lemma seriesWindow_ok {kernel : List (Option Float) → Except OlympianError Nat}
    (hk : seriesKernelGood kernel) (w : List (Option Float)) :
    ∃ f, seriesWindow kernel w = .ok f := by
  obtain ⟨c, hc, hc6⟩ := hk w
  obtain ⟨f, hf⟩ := flagTryFrom_ok_of_le hc6
  exact ⟨f, by simp [seriesWindow, hc, hf]⟩

lemma seriesItem_ok_length {lpr : Nat}
    {kernel : List (Option Float) → Except OlympianError Nat}
    (hk : seriesKernelGood kernel) {T L : Nat} (hlpr : lpr ≤ L) (hLT : L ≤ T)
    {ts : Timeseries} (hts : ts.values.length = T) :
    ∃ flags, seriesItem lpr kernel (L - lpr) T ts = .ok (ts.tag, flags) ∧
      flags.length = T - L := by
  obtain ⟨ys, hys, hylen⟩ :=
    @rustSlice_ok _ ts.values (L - lpr) T (by omega) (by omega)
  have hwin := windows_length (lpr + 1) (by omega) ys
  obtain ⟨flags, hflags, hflen, _⟩ :=
    exMapM_ok_forall (l := windows (lpr + 1) ys) (fun w _ => seriesWindow_ok hk w)
  refine ⟨flags, ?_, ?_⟩
  · simp [seriesItem, hys, hflags]
  · omega

lemma seriesCheckRun_ok_lengths {lpr : Nat}
    {kernel : List (Option Float) → Except OlympianError Nat} {cache : DataCache} {T : Nat}
    (hk : seriesKernelGood kernel) (hu : uniformLen cache T) (hne : cache.data ≠ [])
    (hlpr : lpr ≤ cache.num_leading_points) (hLT : cache.num_leading_points ≤ T) :
    ∃ out, seriesCheckRun lpr kernel cache = .ok out ∧
      out.length = cache.data.length ∧
      ∀ fs ∈ out, fs.2.length = T - cache.num_leading_points := by
  obtain ⟨first, rest, hcons⟩ := List.exists_cons_of_ne_nil hne
  have hfirst : first.values.length = T := hu first (by rw [hcons]; exact List.mem_cons_self _ _)
  have hrun : seriesCheckRun lpr kernel cache =
      exMapM (seriesItem lpr kernel (cache.num_leading_points - lpr) T) cache.data := by
    have hnlt : ¬cache.num_leading_points < lpr := by omega
    simp [seriesCheckRun, hcons, hfirst, hnlt]
  have hitem : ∀ ts ∈ cache.data, ∃ b,
      seriesItem lpr kernel (cache.num_leading_points - lpr) T ts = .ok b := by
    intro ts hts
    obtain ⟨flags, hok, _⟩ := seriesItem_ok_length hk hlpr hLT (hu ts hts)
    exact ⟨(ts.tag, flags), hok⟩
  obtain ⟨out, hout, hlen, hmem⟩ := exMapM_ok_forall hitem
  refine ⟨out, by rw [hrun]; exact hout, hlen, ?_⟩
  intro fs hfs
  obtain ⟨ts, hts, hfsok⟩ := hmem fs hfs
  obtain ⟨flags, hok, hflen⟩ := seriesItem_ok_length hk hlpr hLT (hu ts hts)
  have h2 := hfsok.symm.trans hok
  injection h2 with h2
  rw [h2]
  exact hflen

lemma colValue_ok {i : Nat} {ts : Timeseries} (h : ∃ v, ts.values[i]? = some (some v)) :
    ∃ v, colValue i ts = .ok v := by
  obtain ⟨v, hv⟩ := h
  exact ⟨v, by simp [colValue, hv]⟩

lemma mem_zipWith {f : α → β → γ} :
    ∀ {as : List α} {bs : List β} {c : γ}, c ∈ List.zipWith f as bs →
      ∃ a b, a ∈ as ∧ b ∈ bs ∧ c = f a b := by
  intro as
  induction as with
  | nil => intro bs c h; simp at h
  | cons a as ih =>
    intro bs c h
    cases bs with
    | nil => simp at h
    | cons b bs =>
      rw [List.zipWith_cons_cons] at h
      rcases List.mem_cons.mp h with h | h
      · exact ⟨a, b, List.mem_cons_self _ _, List.mem_cons_self _ _, h⟩
      · obtain ⟨a2, b2, ha, hb, hc⟩ := ih h
        exact ⟨a2, b2, List.mem_cons_of_mem _ ha, List.mem_cons_of_mem _ hb, hc⟩

lemma spatialColumnStep_ok
    {kernel : List Float → Except OlympianError (List Nat)}
    (hk : spatialKernelGood kernel) {data : List Timeseries}
    {acc : List (String × List Flag)} {i m : Nat}
    (hc : cleanCol data i) (hlen : acc.length = data.length)
    (hm : ∀ p ∈ acc, p.2.length = m) :
    ∃ acc2, spatialColumnStep kernel data acc i = .ok acc2 ∧
      acc2.length = data.length ∧ ∀ p ∈ acc2, p.2.length = m + 1 := by
  obtain ⟨inner, hinner, hinlen, _⟩ :=
    exMapM_ok_forall (l := data) (fun ts hts => colValue_ok (hc ts hts))
  obtain ⟨codes, hcodes, hclen, hc6⟩ := hk inner
  obtain ⟨flags, hflags, hflen, _⟩ :=
    exMapM_ok_forall (l := codes) (fun c hcc => flagTryFrom_ok_of_le (hc6 c hcc))
  have hfl : flags.length = acc.length := by omega
  refine ⟨List.zipWith (fun p f => (p.1, p.2 ++ [f])) acc flags ++ acc.drop flags.length,
    ?_, ?_, ?_⟩
  · simp only [spatialColumnStep, hinner, hcodes, hflags]
    rw [if_pos (by omega)]
  · rw [List.length_append, List.length_zipWith, List.length_drop]
    omega
  · intro p hp
    rw [List.mem_append] at hp
    rcases hp with hp | hp
    · obtain ⟨q, f, hq, hf, hpe⟩ := mem_zipWith hp
      rw [hpe]
      simp [hm q hq]
    · rw [hfl, List.drop_length] at hp
      cases hp

lemma spatialColumns_clean
    {kernel : List Float → Except OlympianError (List Nat)}
    (hk : spatialKernelGood kernel) {data : List Timeseries} :
    ∀ (cols : List Nat) (m : Nat) (acc : List (String × List Flag)),
      acc.length = data.length → (∀ p ∈ acc, p.2.length = m) →
      (∀ i ∈ cols, cleanCol data i) →
      ∃ out, spatialColumns kernel data cols acc = .ok out ∧
        out.length = data.length ∧ ∀ p ∈ out, p.2.length = m + cols.length := by
  intro cols
  induction cols with
  | nil =>
    intro m acc h1 h2 _
    exact ⟨acc, rfl, h1, by simpa using h2⟩
  | cons i rest ih =>
    intro m acc h1 h2 hcl
    obtain ⟨acc2, hstep, hlen2, hm2⟩ :=
      spatialColumnStep_ok hk (hcl i (List.mem_cons_self _ _)) h1 h2
    obtain ⟨out, hout, hlen3, hm3⟩ :=
      ih (m + 1) acc2 hlen2 hm2 (fun j hj => hcl j (List.mem_cons_of_mem _ hj))
    refine ⟨out, ?_, hlen3, ?_⟩
    · rw [spatialColumns, hstep]
      exact hout
    · intro p hp
      have := hm3 p hp
      simp only [List.length_cons]
      omega

lemma spatialCheckRun_ok_lengths
    {kernel : List Float → Except OlympianError (List Nat)} {cache : DataCache} {T : Nat}
    (hk : spatialKernelGood kernel) (hu : uniformLen cache T) (hng : noGaps cache)
    (hne : cache.data ≠ []) :
    ∃ out, spatialCheckRun kernel cache = .ok out ∧
      out.length = cache.data.length ∧ ∀ p ∈ out, p.2.length = T := by
  obtain ⟨first, rest, hcons⟩ := List.exists_cons_of_ne_nil hne
  have hfirst : first.values.length = T := hu first (by rw [hcons]; exact List.mem_cons_self _ _)
  have hclean : ∀ i ∈ List.range T, cleanCol cache.data i := by
    intro i hi ts hts
    have hilt : i < ts.values.length := by rw [hu ts hts]; exact List.mem_range.mp hi
    have hx : ts.values[i]? = some ts.values[i] := List.getElem?_eq_getElem hilt
    have hxs : (ts.values[i]).isSome = true := hng ts hts _ (List.getElem?_mem hx)
    obtain ⟨v, hv⟩ := Option.isSome_iff_exists.mp hxs
    exact ⟨v, by rw [hx, hv]⟩
  have hinit : (cache.data.map (fun ts => (ts.tag, ([] : List Flag)))).length =
      cache.data.length := by simp
  have hinitm : ∀ p ∈ cache.data.map (fun ts => (ts.tag, ([] : List Flag))),
      p.2.length = 0 := by
    intro p hp
    obtain ⟨ts, _, hpe⟩ := List.mem_map.mp hp
    subst hpe
    rfl
  obtain ⟨out, hout, hlen, hm⟩ :=
    spatialColumns_clean hk (List.range T) 0 _ hinit hinitm hclean
  have hrun : spatialCheckRun kernel cache =
      spatialColumns kernel cache.data (List.range T)
        (cache.data.map (fun ts => (ts.tag, ([] : List Flag)))) := by
    simp [spatialCheckRun, hcons, hfirst]
  refine ⟨out, by rw [hrun]; exact hout, hlen, ?_⟩
  intro p hp
  have := hm p hp
  simpa using this

lemma constKernels_step_good : seriesKernelGood constKernels.step :=
  fun _ => ⟨0, rfl, by omega⟩

lemma constKernels_dip_good : seriesKernelGood constKernels.dip :=
  fun _ => ⟨0, rfl, by omega⟩

lemma constKernels_buddy_good : spatialKernelGood constKernels.buddy :=
  fun inner => ⟨List.replicate inner.length 0, rfl, by simp,
    fun c hc => by rw [List.eq_of_mem_replicate hc]; omega⟩

lemma constKernels_sct_good : spatialKernelGood constKernels.sct :=
  fun inner => ⟨List.replicate inner.length 0, rfl, by simp,
    fun c hc => by rw [List.eq_of_mem_replicate hc]; omega⟩

/-- C5 counterexample: on a cache with T = 3, L = 1, T_trail = 1, the
step_check branch returns a flag series of length 2 = T - L, not
T - L - T_trail = 1: trailing context rows are flagged. -/

theorem series_flag_length_counterexample :
    computeFlags constKernels ("step_check") paddedCache =
      .ok [(("s"), [Flag.pass, Flag.pass])] ∧
    seriesLengths paddedCache = [3] ∧
    paddedCache.num_leading_points = 1 ∧
    paddedCache.num_trailing_points = 1 ∧
    (2 : Nat) ≠ 3 - 1 - 1 :=
  ⟨rfl, rfl, rfl, rfl, by decide⟩

/-- C5 (amended): with uniform series length T, at least one station,
well-behaved kernels, and enough leading points for the series checks, each
flag series returned by a series check (step_check, dip_check) has length
T - L — not T - L - T_trail: trailing context rows are flagged too — and
each flag series returned by a spatial check (buddy_check, sct, on a
gap-free cache) has length T, covering all context rows. -/

theorem flag_series_lengths (k : Kernels) (cache : DataCache) (T : Nat)
    (hu : uniformLen cache T) (hne : cache.data ≠ []) :
    (seriesKernelGood k.step → 1 ≤ cache.num_leading_points →
      cache.num_leading_points ≤ T →
      ∃ out, computeFlags k ("step_check") cache = .ok out ∧
        out.length = cache.data.length ∧
        ∀ fs ∈ out, fs.2.length = T - cache.num_leading_points) ∧
    (seriesKernelGood k.dip → 2 ≤ cache.num_leading_points →
      cache.num_leading_points ≤ T →
      ∃ out, computeFlags k ("dip_check") cache = .ok out ∧
        out.length = cache.data.length ∧
        ∀ fs ∈ out, fs.2.length = T - cache.num_leading_points) ∧
    (spatialKernelGood k.buddy → noGaps cache →
      ∃ out, computeFlags k ("buddy_check") cache = .ok out ∧
        out.length = cache.data.length ∧ ∀ fs ∈ out, fs.2.length = T) ∧
    (spatialKernelGood k.sct → noGaps cache →
      ∃ out, computeFlags k ("sct") cache = .ok out ∧
        out.length = cache.data.length ∧ ∀ fs ∈ out, fs.2.length = T) := by
  refine ⟨fun hk h1 h2 => ?_, fun hk h1 h2 => ?_, fun hk hg => ?_, fun hk hg => ?_⟩
  · rw [computeFlags_step]
    exact seriesCheckRun_ok_lengths hk hu hne h1 h2
  · rw [computeFlags_dip]
    exact seriesCheckRun_ok_lengths hk hu hne h1 h2
  · rw [computeFlags_buddy]
    exact spatialCheckRun_ok_lengths hk hu hg hne
  · rw [computeFlags_sct]
    exact spatialCheckRun_ok_lengths hk hu hg hne

/-- Witness for the amended C5: at a concrete two-station gap-free cache
with T = 3, L = 1, applied through the theorem itself. -/

theorem flag_series_lengths_witness :
    (∃ out, computeFlags constKernels ("step_check") gapFreeCache = .ok out ∧
      out.length = gapFreeCache.data.length ∧
      ∀ fs ∈ out, fs.2.length = 3 - gapFreeCache.num_leading_points) ∧
    (∃ out, computeFlags constKernels ("buddy_check") gapFreeCache = .ok out ∧
      out.length = gapFreeCache.data.length ∧ ∀ fs ∈ out, fs.2.length = 3) :=
  ⟨(flag_series_lengths constKernels gapFreeCache 3
      (by unfold uniformLen; decide) (List.cons_ne_nil _ _)).1
      constKernels_step_good (by decide) (by decide),
    (flag_series_lengths constKernels gapFreeCache 3
      (by unfold uniformLen; decide) (List.cons_ne_nil _ _)).2.2.1
      constKernels_buddy_good (by simp [noGaps, gapFreeCache])⟩

lemma colValue_ok_or_panic (i : Nat) (ts : Timeseries) :
    (∃ v, colValue i ts = .ok v) ∨ ∃ m, colValue i ts = .error (.panicked m) := by
  rcases h : ts.values[i]? with _ | (_ | v)
  · exact .inr ⟨("index out of bounds"), by simp [colValue, h]⟩
  · exact .inr ⟨("called unwrap on a None value"), by simp [colValue, h]⟩
  · exact .inl ⟨v, by simp [colValue, h]⟩

lemma exMapM_panic {f : α → Except RunError β} :
    ∀ {l : List α},
      (∀ a ∈ l, (∃ v, f a = .ok v) ∨ ∃ m, f a = .error (.panicked m)) →
      (∃ a ∈ l, ∃ m, f a = .error (.panicked m)) →
      ∃ m, exMapM f l = .error (.panicked m) := by
  intro l
  induction l with
  | nil =>
    rintro _ ⟨a, ha, _⟩
    exact absurd ha (List.not_mem_nil a)
  | cons a l ih =>
    rintro hall ⟨x, hx, mx, hfx⟩
    rcases hall a (List.mem_cons_self _ _) with ⟨v, hv⟩ | ⟨m, hm⟩
    · rcases List.mem_cons.mp hx with rfl | hx
      · rw [hv] at hfx
        cases hfx
      · obtain ⟨m2, hm2⟩ := ih (fun b hb => hall b (List.mem_cons_of_mem _ hb)) ⟨x, hx, mx, hfx⟩
        rw [exMapM, hv, hm2]
        exact ⟨m2, rfl⟩
    · rw [exMapM, hm]
      exact ⟨m, rfl⟩

lemma columnExtract_panic {data : List Timeseries} {i : Nat} (hg : gapAt data i) :
    ∃ m, exMapM (colValue i) data = .error (.panicked m) := by
  obtain ⟨ts, hts, hv⟩ := hg
  exact exMapM_panic (fun t _ => colValue_ok_or_panic i t)
    ⟨ts, hts, ("called unwrap on a None value"), by simp [colValue, hv]⟩

lemma spatialColumnStep_gap
    {kernel : List Float → Except OlympianError (List Nat)}
    {data : List Timeseries} {acc : List (String × List Flag)} {i : Nat}
    (hg : gapAt data i) :
    ∃ m, spatialColumnStep kernel data acc i = .error (.panicked m) := by
  obtain ⟨m, hm⟩ := columnExtract_panic hg
  exact ⟨m, by simp [spatialColumnStep, hm]⟩

lemma spatialColumnStep_ok_len
    {kernel : List Float → Except OlympianError (List Nat)}
    (hk : spatialKernelGood kernel) {data : List Timeseries}
    {acc : List (String × List Flag)} {i : Nat}
    (hc : cleanCol data i) (hlen : acc.length = data.length) :
    ∃ acc2, spatialColumnStep kernel data acc i = .ok acc2 ∧
      acc2.length = data.length := by
  obtain ⟨inner, hinner, hinlen, _⟩ :=
    exMapM_ok_forall (l := data) (fun ts hts => colValue_ok (hc ts hts))
  obtain ⟨codes, hcodes, hclen, hc6⟩ := hk inner
  obtain ⟨flags, hflags, hflen, _⟩ :=
    exMapM_ok_forall (l := codes) (fun c hcc => flagTryFrom_ok_of_le (hc6 c hcc))
  refine ⟨List.zipWith (fun p f => (p.1, p.2 ++ [f])) acc flags ++ acc.drop flags.length,
    ?_, ?_⟩
  · simp only [spatialColumnStep, hinner, hcodes, hflags]
    rw [if_pos (by omega)]
  · rw [List.length_append, List.length_zipWith, List.length_drop]
    omega

lemma spatialColumns_reaches_gap
    {kernel : List Float → Except OlympianError (List Nat)}
    (hk : spatialKernelGood kernel) {data : List Timeseries} {T : Nat}
    (hT : ∀ ts ∈ data, ts.values.length = T) :
    ∀ (cols : List Nat) (acc : List (String × List Flag)),
      acc.length = data.length → (∀ i ∈ cols, i < T) →
      (∃ j ∈ cols, gapAt data j) →
      ∃ m, spatialColumns kernel data cols acc = .error (.panicked m) := by
  intro cols
  induction cols with
  | nil =>
    rintro acc _ _ ⟨j, hj, _⟩
    exact absurd hj (List.not_mem_nil j)
  | cons i rest ih =>
    intro acc hlen hlt hex
    by_cases hgi : gapAt data i
    · obtain ⟨m, hm⟩ := @spatialColumnStep_gap kernel data acc i hgi
      exact ⟨m, by rw [spatialColumns, hm]⟩
    · have hci : cleanCol data i := by
        intro ts hts
        have hilt : i < ts.values.length := by
          rw [hT ts hts]
          exact hlt i (List.mem_cons_self _ _)
        have hx : ts.values[i]? = some ts.values[i] := List.getElem?_eq_getElem hilt
        rcases hv : ts.values[i] with _ | v
        · exact absurd ⟨ts, hts, by rw [hx, hv]⟩ hgi
        · exact ⟨v, by rw [hx, hv]⟩
      obtain ⟨acc2, hstep, hlen2⟩ := spatialColumnStep_ok_len hk hci hlen
      have hex2 : ∃ j ∈ rest, gapAt data j := by
        rcases hex with ⟨j, hj, hgj⟩
        rcases List.mem_cons.mp hj with rfl | hj
        · exact absurd hgj hgi
        · exact ⟨j, hj, hgj⟩
      obtain ⟨m, hm⟩ := ih acc2 hlen2 (fun j hj => hlt j (List.mem_cons_of_mem _ hj)) hex2
      refine ⟨m, ?_⟩
      rw [spatialColumns, hstep]
      exact hm

/-- C9: on a cache whose station series all have length T, with a gap at
some station and column j < T, the buddy_check and sct branches of run_test
panic (the unwrap on the missing value) rather than returning an error
value, provided the spatial kernel itself never fails; gap-freedom is thus
a precondition for the spatial branches to be total. -/

theorem spatial_branches_panic_on_gap (k : Kernels) (cache : DataCache) (T j : Nat)
    (hu : uniformLen cache T) (hj : j < T) (hg : gapAt cache.data j) :
    (spatialKernelGood k.buddy →
      ∃ m, computeFlags k ("buddy_check") cache = .error (.panicked m)) ∧
    (spatialKernelGood k.sct →
      ∃ m, computeFlags k ("sct") cache = .error (.panicked m)) := by
  have hne : cache.data ≠ [] := by
    rcases hg with ⟨ts, hts, _⟩
    intro h
    rw [h] at hts
    exact absurd hts (List.not_mem_nil ts)
  obtain ⟨first, rest, hcons⟩ := List.exists_cons_of_ne_nil hne
  have hfirst : first.values.length = T := hu first (by rw [hcons]; exact List.mem_cons_self _ _)
  have main : ∀ kernel, spatialKernelGood kernel →
      ∃ m, spatialCheckRun kernel cache = .error (.panicked m) := by
    intro kernel hk
    have hrun : spatialCheckRun kernel cache =
        spatialColumns kernel cache.data (List.range T)
          (cache.data.map (fun ts => (ts.tag, ([] : List Flag)))) := by
      simp [spatialCheckRun, hcons, hfirst]
    obtain ⟨m, hm⟩ := spatialColumns_reaches_gap hk hu (List.range T)
      (cache.data.map (fun ts => (ts.tag, ([] : List Flag)))) (by simp)
      (fun i hi => List.mem_range.mp hi) ⟨j, List.mem_range.mpr hj, hg⟩
    exact ⟨m, by rw [hrun]; exact hm⟩
  exact ⟨fun hk => by rw [computeFlags_buddy]; exact main k.buddy hk,
    fun hk => by rw [computeFlags_sct]; exact main k.sct hk⟩

/-- Witness for C9 at a concrete gapped cache, applied through the theorem
itself. -/

theorem spatial_branches_panic_on_gap_witness :
    ∃ m, computeFlags constKernels ("buddy_check") gappedCache =
      .error (.panicked m) :=
  (spatial_branches_panic_on_gap constKernels gappedCache 3 1
    (by unfold uniformLen; decide) (by decide)
    ⟨_, List.mem_cons_self _ _, rfl⟩).1 constKernels_buddy_good

/-- C6 (evaluation at the failing input): with L = 1 and a five-minute
period, the step_check flags — which flag the observations at indices
L + k — are attached the timestamps start_time + k * period
(1700000000, 1700000300), not start_time + (L + k) * period
(1700000300, 1700000600): the leading offset is never applied by the
date rule in run_test. -/

theorem series_timestamp_divergence :
    runTest constKernels ("step_check") leadingCache =
      .ok { test := ("step_check"),
            results := [{ time := 1700000000, identifier := ("s"), flag := Flag.pass },
                        { time := 1700000300, identifier := ("s"), flag := Flag.pass }] } ∧
    leadingCache.num_leading_points = 1 ∧
    dateRuleAt leadingCache.start_time leadingCache.period (1 + 0) = 1700000300 ∧
    (1700000000 : Int) ≠ 1700000300 :=
  ⟨rfl, rfl, rfl, by decide⟩

lemma fetch_dataT_fst (ds : DataSwitch) (id : String) (space_spec : SpaceSpec)
    (time_spec : TimeSpec) (lead trail : Nat) (extra_spec : Option String) :
    (ds.fetch_dataT id space_spec time_spec lead trail extra_spec).1 =
      ds.fetch_data id space_spec time_spec lead trail extra_spec := by
  cases h : ds.sources.lookup id <;>
    simp [DataSwitch.fetch_data, DataSwitch.fetch_dataT, h]

/-- C3: fetch_data on an unregistered id returns InvalidDataSource carrying
that id and invokes no connector; on a registered id it forwards all five
arguments unchanged to the matching connector, returns that connector's
result, and invokes exactly that connector with exactly those arguments. -/

theorem fetch_data_dispatch (ds : DataSwitch) (id : String) (space_spec : SpaceSpec)
    (time_spec : TimeSpec) (lead trail : Nat) (extra_spec : Option String) :
    (ds.sources.lookup id = none →
      ds.fetch_data id space_spec time_spec lead trail extra_spec =
        .error (.invalidDataSource id) ∧
      (ds.fetch_dataT id space_spec time_spec lead trail extra_spec).2 = []) ∧
    (∀ c, ds.sources.lookup id = some c →
      ds.fetch_data id space_spec time_spec lead trail extra_spec =
        c.fetch_data space_spec time_spec lead trail extra_spec ∧
      (ds.fetch_dataT id space_spec time_spec lead trail extra_spec).2 =
        [(id, space_spec, time_spec, lead, trail, extra_spec)]) := by
  constructor
  · intro h
    constructor <;> simp [DataSwitch.fetch_data, DataSwitch.fetch_dataT, h]
  · intro c h
    constructor <;> simp [DataSwitch.fetch_data, DataSwitch.fetch_dataT, h]

/-- Witness for C3 at concrete inputs: the unknown id "nosuch" errors
without any connector call, and the registered id "src1" is forwarded to
its connector verbatim; applied through the theorem itself. -/

theorem fetch_data_dispatch_witness :
    (oneSourceSwitch.fetch_data ("nosuch") SpaceSpec.All someTimeSpec 1 2 none =
        .error (.invalidDataSource ("nosuch")) ∧
      (oneSourceSwitch.fetch_dataT ("nosuch") SpaceSpec.All someTimeSpec 1 2 none).2 =
        []) ∧
    (oneSourceSwitch.fetch_data ("src1") SpaceSpec.All someTimeSpec 1 2 none =
        failingConnector.fetch_data SpaceSpec.All someTimeSpec 1 2 none ∧
      (oneSourceSwitch.fetch_dataT ("src1") SpaceSpec.All someTimeSpec 1 2 none).2 =
        [(("src1"), SpaceSpec.All, someTimeSpec, 1, 2, none)]) :=
  ⟨(fetch_data_dispatch oneSourceSwitch ("nosuch") SpaceSpec.All someTimeSpec 1 2
      none).1 rfl,
    (fetch_data_dispatch oneSourceSwitch ("src1") SpaceSpec.All someTimeSpec 1 2
      none).2 failingConnector rfl⟩

lemma schedule_testsT_fst
    (run_check : PipelineStep → DataCache → Except HarnessError CheckResult)
    (data : DataCache) (pipeline : Pipeline) :
    (schedule_testsT run_check data pipeline.steps).1 =
      schedule_tests run_check pipeline data := by
  show (schedule_testsT run_check data pipeline.steps).1 =
    exMapM _ pipeline.steps
  induction pipeline.steps with
  | nil => rfl
  | cons step rest ih =>
    rw [schedule_testsT, exMapM]
    cases run_check step data with
    | error e => rfl
    | ok r =>
      simp only []
      rw [← ih]
      cases (schedule_testsT run_check data rest).1 <;> rfl

lemma exMapM_forall₂ {f : α → Except ε β} {l : List α}
    (h : ∀ a ∈ l, ∃ b, f a = .ok b) :
    ∃ bs, exMapM f l = .ok bs ∧ List.Forall₂ (fun a b => f a = .ok b) l bs := by
  induction l with
  | nil => exact ⟨[], rfl, List.Forall₂.nil⟩
  | cons a l ih =>
    obtain ⟨b, hb⟩ := h a (List.mem_cons_self _ _)
    obtain ⟨bs, hbs, hfa⟩ := ih (fun x hx => h x (List.mem_cons_of_mem _ hx))
    exact ⟨b :: bs, by rw [exMapM, hb, hbs], List.Forall₂.cons hb hfa⟩

lemma exMapM_first_error {f : α → Except ε β} {pre : List α} {x : α} {post : List α}
    {e : ε} (hpre : ∀ a ∈ pre, ∃ b, f a = .ok b) (hx : f x = .error e) :
    exMapM f (pre ++ x :: post) = .error e := by
  induction pre with
  | nil => rw [List.nil_append, exMapM, hx]
  | cons a pre ih =>
    obtain ⟨b, hb⟩ := hpre a (List.mem_cons_self _ _)
    rw [List.cons_append, exMapM, hb,
      ih (fun y hy => hpre y (List.mem_cons_of_mem _ hy))]

lemma schedule_testsT_trace_ok
    {run_check : PipelineStep → DataCache → Except HarnessError CheckResult}
    {data : DataCache} :
    ∀ {steps : List PipelineStep},
      (∀ s ∈ steps, ∃ r, run_check s data = .ok r) →
      (schedule_testsT run_check data steps).2 = steps := by
  intro steps
  induction steps with
  | nil => intro _; rfl
  | cons step rest ih =>
    intro h
    obtain ⟨r, hr⟩ := h step (List.mem_cons_self _ _)
    rw [schedule_testsT, hr]
    simp only []
    rw [ih (fun s hs => h s (List.mem_cons_of_mem _ hs))]

lemma schedule_testsT_trace_err
    {run_check : PipelineStep → DataCache → Except HarnessError CheckResult}
    {data : DataCache} {x : PipelineStep} {e : HarnessError} (hx : run_check x data = .error e) :
    ∀ {pre post : List PipelineStep},
      (∀ s ∈ pre, ∃ r, run_check s data = .ok r) →
      (schedule_testsT run_check data (pre ++ x :: post)).2 = pre ++ [x] := by
  intro pre
  induction pre with
  | nil =>
    intro post _
    rw [List.nil_append, schedule_testsT, hx]
    rfl
  | cons a pre ih =>
    intro post h
    obtain ⟨r, hr⟩ := h a (List.mem_cons_self _ _)
    rw [List.cons_append, schedule_testsT, hr]
    simp only []
    rw [ih (fun s hs => h s (List.mem_cons_of_mem _ hs))]
    rfl

/-- C2: schedule_tests runs the pipeline's steps strictly in pipeline
order: when every step succeeds it returns one CheckResult per step, in
order (Forall₂ pairs each step with its result positionally), having
invoked run_check on exactly the full step list in order; when a step
fails, it returns that step's error wrapped in Runner with no partial
results, having invoked run_check only on the steps up to and including
the failing one. -/

theorem schedule_tests_order_and_fail_closed
    (run_check : PipelineStep → DataCache → Except HarnessError CheckResult)
    (pipeline : Pipeline) (data : DataCache) :
    ((∀ s ∈ pipeline.steps, ∃ r, run_check s data = .ok r) →
      ∃ out, schedule_tests run_check pipeline data = .ok out ∧
        List.Forall₂ (fun step r => run_check step data = .ok r) pipeline.steps out ∧
        (schedule_testsT run_check data pipeline.steps).2 = pipeline.steps) ∧
    (∀ pre x post e, pipeline.steps = pre ++ x :: post →
      (∀ s ∈ pre, ∃ r, run_check s data = .ok r) →
      run_check x data = .error e →
      schedule_tests run_check pipeline data = .error (.runner e) ∧
      (schedule_testsT run_check data pipeline.steps).2 = pre ++ [x]) := by
  constructor
  · intro h
    have hwrap : ∀ s ∈ pipeline.steps, ∃ r,
        (match run_check s data with
          | .error e => .error (SchedulerError.runner e)
          | .ok r => .ok r) = Except.ok r := by
      intro s hs
      obtain ⟨r, hr⟩ := h s hs
      exact ⟨r, by rw [hr]⟩
    obtain ⟨out, hout, hfa⟩ := exMapM_forall₂ hwrap
    refine ⟨out, hout, ?_, schedule_testsT_trace_ok h⟩
    refine hfa.imp ?_
    intro s r hsr
    cases hrc : run_check s data with
    | error e => rw [hrc] at hsr; cases hsr
    | ok r2 => rw [hrc] at hsr; simpa using hsr
  · intro pre x post e hsteps hpre hx
    constructor
    · rw [schedule_tests, hsteps]
      refine exMapM_first_error ?_ (by rw [hx])
      intro s hs
      obtain ⟨r, hr⟩ := hpre s hs
      exact ⟨r, by rw [hr]⟩
    · rw [hsteps]
      exact schedule_testsT_trace_err hx hpre

/-- Witness for C2 at concrete inputs: under namedRunCheck the middle step
of midFailPipeline fails, the error surfaces wrapped in Runner, and only
the first two steps are executed; applied through the theorem itself. -/

theorem schedule_tests_order_and_fail_closed_witness :
    schedule_tests namedRunCheck midFailPipeline paddedCache =
      .error (.runner (.invalidTestName ("bad"))) ∧
    (schedule_testsT namedRunCheck paddedCache midFailPipeline.steps).2 =
      [{ name := ("a"), check := .Dummy }, { name := ("bad"), check := .Dummy }] :=
  (schedule_tests_order_and_fail_closed namedRunCheck midFailPipeline paddedCache).2
    [{ name := ("a"), check := .Dummy }]
    { name := ("bad"), check := .Dummy }
    [{ name := ("c"), check := .Dummy }]
    (.invalidTestName ("bad")) rfl
    (fun s hs => ⟨{ check := s.name, results := [] }, by
      rcases List.mem_singleton.mp hs with rfl
      rfl⟩)
    rfl

lemma validate_directT_fst (s : Scheduler)
    (run_check : PipelineStep → DataCache → Except HarnessError CheckResult)
    (data_source : String) (backing_sources : List String)
    (time_spec : TimeSpec) (space_spec : SpaceSpec)
    (test_pipeline : String) (extra_spec : Option String) :
    (validate_directT s run_check data_source backing_sources time_spec space_spec
        test_pipeline extra_spec).1 =
      validate_direct s run_check data_source backing_sources time_spec space_spec
        test_pipeline extra_spec := by
  cases h : s.pipelines.lookup test_pipeline with
  | none => simp [validate_direct, validate_directT, h]
  | some pipeline =>
    simp only [validate_direct, validate_directT, h]
    rw [fetch_dataT_fst]

/-- C4: when the pipeline name is absent from the scheduler's table,
validate_direct returns InvalidArg "pipeline not recognised", performs no
data-switch fetch and invokes no connector, for all other arguments. -/

theorem validate_direct_unknown_pipeline (s : Scheduler)
    (run_check : PipelineStep → DataCache → Except HarnessError CheckResult)
    (data_source : String) (backing_sources : List String)
    (time_spec : TimeSpec) (space_spec : SpaceSpec)
    (test_pipeline : String) (extra_spec : Option String)
    (h : s.pipelines.lookup test_pipeline = none) :
    validate_direct s run_check data_source backing_sources time_spec space_spec
      test_pipeline extra_spec = .error (.invalidArg ("pipeline not recognised")) ∧
    (validate_directT s run_check data_source backing_sources time_spec space_spec
      test_pipeline extra_spec).2.1 = [] ∧
    (validate_directT s run_check data_source backing_sources time_spec space_spec
      test_pipeline extra_spec).2.2 = [] := by
  refine ⟨?_, ?_, ?_⟩ <;> simp [validate_direct, validate_directT, h]

/-- Witness for C4 at concrete inputs: the pipeline name "missing" is not
registered, so validate_direct errors and no fetch happens; applied through
the theorem itself. -/

theorem validate_direct_unknown_pipeline_witness :
    validate_direct onePipelineScheduler namedRunCheck ("src1") [] someTimeSpec
      SpaceSpec.All ("missing") none =
      .error (.invalidArg ("pipeline not recognised")) ∧
    (validate_directT onePipelineScheduler namedRunCheck ("src1") [] someTimeSpec
      SpaceSpec.All ("missing") none).2.1 = [] ∧
    (validate_directT onePipelineScheduler namedRunCheck ("src1") [] someTimeSpec
      SpaceSpec.All ("missing") none).2.2 = [] :=
  validate_direct_unknown_pipeline onePipelineScheduler namedRunCheck ("src1") []
    someTimeSpec SpaceSpec.All ("missing") none rfl

/-- C8: parse_duration maps the bare "P" to the zero duration, accepts
all-zero fields, and rejects any unconsumed trailing text in the date or
time part: parse_datespec / parse_timespec error whenever the three
terminated fields leave a non-empty remainder, and parse_duration
propagates those errors. -/

theorem parse_duration_behaviour :
    parse_duration ("P") = .ok { months := 0, seconds := 0 } ∧
    parse_duration ("P0Y0M0DT0H0M0S") = .ok { months := 0, seconds := 0 } ∧
    (∀ ds r1 r2 r3 a b c,
      get_terminated ds 'Y' = .ok (r1, a) →
      get_terminated r1 'M' = .ok (r2, b) →
      get_terminated r2 'D' = .ok (r3, c) →
      r3 ≠ [] → ∃ msg, parse_datespec ds = .error (.parse msg)) ∧
    (∀ ts r1 r2 r3 a b c,
      get_terminated ts 'H' = .ok (r1, a) →
      get_terminated r1 'M' = .ok (r2, b) →
      get_terminated r2 'S' = .ok (r3, c) →
      r3 ≠ [] → ∃ msg, parse_timespec ts = .error (.parse msg)) ∧
    (∀ (input : String) (rest : List Char) (e : DurationError),
      input.toList = 'P' :: rest →
      parse_datespec (splitDT rest).1 = .error e →
      parse_duration input = .error e) ∧
    (∀ (input : String) (rest : List Char) (e : DurationError) v,
      input.toList = 'P' :: rest →
      parse_datespec (splitDT rest).1 = .ok v →
      parse_timespec (splitDT rest).2 = .error e →
      parse_duration input = .error e) := by
  refine ⟨rfl, rfl, ?_, ?_, ?_, ?_⟩
  · intro ds r1 r2 r3 a b c h1 h2 h3 hne
    rcases r3 with _ | ⟨c4, r4⟩
    · exact absurd rfl hne
    · exact ⟨("trailing characters: ") ++ String.mk (c4 :: r4) ++
        (" in datespec: ") ++ String.mk ds, by simp [parse_datespec, h1, h2, h3]⟩
  · intro ts r1 r2 r3 a b c h1 h2 h3 hne
    rcases r3 with _ | ⟨c4, r4⟩
    · exact absurd rfl hne
    · exact ⟨("trailing characters: ") ++ String.mk (c4 :: r4) ++
        (" in timespec: ") ++ String.mk ts, by simp [parse_timespec, h1, h2, h3]⟩
  · intro input rest e h0 hd
    rw [parse_duration, h0]
    simp only [hd]
  · intro input rest e v h0 hd ht
    rw [parse_duration, h0]
    rcases v with ⟨vy, vm, vd⟩
    simp only [hd, ht]

/-- Witness for C8 at concrete inputs: the date part "1M2M" leaves the
unconsumed remainder "2M" after its three terminated fields, so
parse_datespec rejects it and parse_duration rejects "P1M2M"; applied
through the theorem itself. -/

theorem parse_duration_behaviour_witness :
    (∃ msg, parse_datespec (String.toList ("1M2M")) = .error (.parse msg)) ∧
    parse_duration ("P1M2M") =
      .error (.parse (("trailing characters: ") ++ ("2M") ++
        (" in datespec: ") ++ ("1M2M"))) :=
  ⟨parse_duration_behaviour.2.2.1 (String.toList ("1M2M"))
      (String.toList ("1M2M")) (String.toList ("2M")) (String.toList ("2M")) 0 1 0
      rfl rfl rfl (by decide),
    parse_duration_behaviour.2.2.2.2.1 ("P1M2M") (String.toList ("1M2M")) _
      rfl rfl⟩

end Rove
